import Mathlib

/-!
Verification development for the smartphone PIV (particle image velocimetry)
processing backend.  The repository ships two Express servers:

* `server.js` (advanced backend): grayscale frames, exhaustive normalized
  cross-correlation (`normalizedCrossCorrelation`), grid traversal
  (`computePIVField`), MAD outlier removal (`removeOutliers`) and field
  statistics (`calculateStatistics`) under the global `PIV_CONFIG`.
* the phase-correlation server: reflective padding, Hanning apodization,
  raw dot-product correlation (`phaseCorrelate`), global mean/std outlier
  flagging with a sequential local-median replacement pass, and inline
  statistics (`processImagePair`).

The JavaScript number type is modelled by `ℚ` (exact rational arithmetic);
`Math.sqrt` is modelled by an explicit function parameter `msqrt : ℚ → ℚ`,
instantiated on concrete perfect squares in witnesses.  JavaScript `NaN`
markers for rejected vectors are modelled by `Option ℚ` (`none` = `NaN`),
and the `-Infinity` initial value of correlation maxima by `WithBot ℚ`.
A comparison `c > maxCorr` is false in JavaScript whenever `c` is `NaN`
(which happens exactly when a zero-pixel overlap made `c = 0/0`), so an
offset with overlap count `0` never updates the running maximum; the
embedding gives such offsets the score `⊥`, which never wins either.
-/

/-- Left-fold sum, mirroring `arr.reduce((sum, val) => sum + val, 0)`. -/
def sumQ (l : List ℚ) : ℚ := l.foldl (fun s v => s + v) 0

/-- Left-fold sum of squares, mirroring `arr.reduce((sum, v) => sum + v * v, 0)`. -/
def sumSq (l : List ℚ) : ℚ := l.foldl (fun s v => s + v * v) 0

/-- Arithmetic mean of a list, mirroring `arr.reduce(..)/arr.length`. -/
def meanQ (l : List ℚ) : ℚ := sumQ l / l.length

/-- Population variance of the mean-centred template, mirroring
`templateNorm.reduce((sum, v) => sum + v * v, 0) / template.length`
in `normalizedCrossCorrelation`. -/
def templateVar (template : List ℚ) : ℚ :=
  sumSq (template.map (fun v => v - meanQ template)) / template.length

/-- The row-major offset scan order of both correlation loops:
`for dy = -r..r { for dx = -r..r { ... } }`, elements `(dx, dy)`. -/
def scanOffsets (r : Nat) : List (Int × Int) :=
  (List.range (2 * r + 1)).flatMap (fun a =>
    (List.range (2 * r + 1)).map (fun b => ((b : Int) - r, (a : Int) - r)))

/-- The running-maximum accumulator of both correlation loops:
`if (correlation > maxCorr) { maxCorr = correlation; bestDx = dx; bestDy = dy }`.
The state is `(maxCorr, (bestDx, bestDy))`. -/
def runBest (score : Int × Int → WithBot ℚ) :
    WithBot ℚ × Int × Int → List (Int × Int) → WithBot ℚ × Int × Int
  | acc, [] => acc
  | acc, o :: rest =>
      runBest score (if acc.1 < score o then (score o, o) else acc) rest

/-- Row-major pixel coordinates `(i, j)` of a `W × W` window, the order the
inner loops `for j { for i { ... } }` visit them in. -/
def pairList (W : Nat) : List (Nat × Nat) :=
  (List.range W).flatMap (fun j => (List.range W).map (fun i => (i, j)))

/-- One step of the correlation sum of `normalizedCrossCorrelation`:
the body of `for j { for i { ... } }` at pixel `p = (i, j)`, accumulating
`(correlation, count)`.  The bounds check is the source's flat-index test
`searchIdx >= 0 && searchIdx < search.length` on
`searchIdx = (j + dy) * windowSize + (i + dx)`. -/
def nccOffsetTerm (templateNorm search : List ℚ) (templateMean : ℚ)
    (windowSize : Nat) (dx dy : Int) (acc : ℚ × Nat) (p : Nat × Nat) : ℚ × Nat :=
  let searchIdx : Int := ((p.2 : Int) + dy) * windowSize + ((p.1 : Int) + dx)
  if 0 ≤ searchIdx ∧ searchIdx < (search.length : Int) then
    (acc.1 + templateNorm.getD (p.2 * windowSize + p.1) 0 *
      (search.getD searchIdx.toNat 0 - templateMean), acc.2 + 1)
  else acc

/-- The `(correlation, count)` pair computed by the two inner loops of
`normalizedCrossCorrelation` at a fixed offset `(dx, dy)`. -/
def nccOffsetAccum (templateNorm search : List ℚ) (templateMean : ℚ)
    (windowSize : Nat) (dx dy : Int) : ℚ × Nat :=
  (List.range windowSize).foldl (fun acc j =>
    (List.range windowSize).foldl (fun acc i =>
      nccOffsetTerm templateNorm search templateMean windowSize dx dy acc (i, j)) acc)
    (0, 0)

/-- The correlation score `normalizedCrossCorrelation` assigns to one offset:
`correlation / (count * templateStd)` when `count > 0`; an offset with
`count = 0` never competes (score `⊥`). -/
def nccScoreOf (msqrt : ℚ → ℚ) (template search : List ℚ)
    (windowSize : Nat) (dx dy : Int) : WithBot ℚ :=
  let templateMean := meanQ template
  let templateNorm := template.map (fun v => v - templateMean)
  let templateStd := msqrt (templateVar template)
  let acc := nccOffsetAccum templateNorm search templateMean windowSize dx dy
  if acc.2 = 0 then ⊥ else ((acc.1 / (acc.2 * templateStd) : ℚ) : WithBot ℚ)

/-- Result record of `normalizedCrossCorrelation`: `{ dx, dy, correlation }`. -/
structure NCCResult where
  dx : Int
  dy : Int
  correlation : WithBot ℚ
deriving DecidableEq, Repr

/-- `normalizedCrossCorrelation(template, search, windowSize, searchRange)` of
`server.js`: mean-centre the template, early-return `{dx: 0, dy: 0,
correlation: 0}` on a zero template standard deviation, otherwise run the
exhaustive offset scan keeping the first strict improvement of the running
maximum (initially `-Infinity`, modelled `⊥`). -/
def normalizedCrossCorrelation (msqrt : ℚ → ℚ) (template search : List ℚ)
    (windowSize searchRange : Nat) : NCCResult :=
  let templateStd := msqrt (templateVar template)
  if templateStd = 0 then ⟨0, 0, ((0 : ℚ) : WithBot ℚ)⟩
  else
    let b := runBest (fun o => nccScoreOf msqrt template search windowSize o.1 o.2)
      (⊥, (0, 0)) (scanOffsets searchRange)
    ⟨b.2.1, b.2.2, b.1⟩

/-- Demonstration square root used by concrete witnesses: exact on the
perfect squares that appear in them. -/
def msqrtDemo (q : ℚ) : ℚ :=
  if q = 0 then 0
  else if q = 1/4 then 1/2
  else if q = 1 then 1
  else if q = 100 then 10
  else 0

/-- The striped 2×2 template used by concrete examples. -/
def tpl1 : List ℚ := [0, 1, 0, 1]

/-- A grayscale frame: row-major pixel buffer with width and height. -/
structure PIVImage where
  pixels : List ℚ
  width : Nat
  height : Nat
deriving DecidableEq, Repr

/-- The fields of the global `PIV_CONFIG` object that `computePIVField`
and its callers read. -/
structure PIVConfigE where
  interrogationWindow : Nat
  overlap : ℚ
  searchRange : Nat
  minimumCorrelation : ℚ
  subPixelAccuracy : Bool
  outlierThreshold : ℚ
deriving DecidableEq, Repr

/-- The shipped `PIV_CONFIG` defaults of `server.js`. -/
def PIV_CONFIG : PIVConfigE :=
  { interrogationWindow := 64
    overlap := 1/2
    searchRange := 32
    minimumCorrelation := 1/10
    subPixelAccuracy := true
    outlierThreshold := 3 }

/-- One displacement vector pushed by `computePIVField`:
`{ x, y, u, v, correlation }`. -/
structure PIVVector where
  x : ℚ
  y : ℚ
  u : ℚ
  v : ℚ
  correlation : WithBot ℚ
deriving DecidableEq, Repr

/-- `extractWindow(pixels, width, height, x, y, windowSize)` of `server.js`:
a `Float32Array` is zero-initialised, and only in-bounds source pixels are
copied, so out-of-bounds positions stay `0`. -/
def extractWindow (pixels : List ℚ) (width height : Nat) (x y : Int)
    (windowSize : Nat) : List ℚ :=
  (List.range windowSize).flatMap (fun j => (List.range windowSize).map (fun i =>
    let px := x + i
    let py := y + j
    if 0 ≤ px ∧ px < (width : Int) ∧ 0 ≤ py ∧ py < (height : Int) then
      pixels.getD (py * width + px).toNat 0
    else 0))

/-- The index values visited by `for (let y = 0; y < bound; y += step)`.
The JavaScript loop never terminates when `step ≤ 0` and `bound > 0`; the
embedding is defined only for positive steps and returns the visited list. -/
def gridPositions (bound : Int) (step : Int) : List Int :=
  if 0 < step then
    (List.range ((bound.toNat + step.toNat - 1) / step.toNat)).map
      (fun k => (k : Int) * step)
  else []

/-- `computePIVField(image1, image2, config)` of `server.js`: tile the frame
with `step = floor(windowSize * (1 - overlap))`, correlate the window pair,
and keep a vector exactly when its correlation reaches
`config.minimumCorrelation`.  The code performs no configuration or
dimension validation whatsoever. -/
def computePIVField (msqrt : ℚ → ℚ) (image1 image2 : PIVImage)
    (config : PIVConfigE) : List PIVVector :=
  let windowSize := config.interrogationWindow
  let step := Int.floor ((windowSize : ℚ) * (1 - config.overlap))
  (gridPositions ((image1.height : Int) - windowSize) step).flatMap (fun y =>
    (gridPositions ((image1.width : Int) - windowSize) step).filterMap (fun x =>
      let window1 := extractWindow image1.pixels image1.width image1.height x y windowSize
      let window2 := extractWindow image2.pixels image1.width image1.height x y windowSize
      let result := normalizedCrossCorrelation msqrt window1 window2 windowSize
        config.searchRange
      if ((config.minimumCorrelation : ℚ) : WithBot ℚ) ≤ result.correlation then
        some { x := (x : ℚ) + (windowSize : ℚ) / 2
               y := (y : ℚ) + (windowSize : ℚ) / 2
               u := (result.dx : ℚ)
               v := (result.dy : ℚ)
               correlation := result.correlation }
      else none))

/-- The median idiom both servers use: sort ascending (JavaScript
`.sort((a, b) => a - b)`) and take the element at `floor(length / 2)`. -/
def medianOf (l : List ℚ) : ℚ :=
  (l.insertionSort (· ≤ ·)).getD ((l.insertionSort (· ≤ ·)).length / 2) 0

/-- Magnitude of one vector as `removeOutliers` and `calculateStatistics`
compute it: `Math.sqrt(v.u * v.u + v.v * v.v)`. -/
def vecMag (msqrt : ℚ → ℚ) (v : PIVVector) : ℚ := msqrt (v.u * v.u + v.v * v.v)

/-- `removeOutliers(vectors, threshold)` of `server.js` (default
`threshold = 3`): median / median-absolute-deviation gating on vector
magnitudes.  Vectors failing `|magnitude - median| <= threshold * mad` are
dropped from the returned list, not retained with a flag. -/
def removeOutliers (msqrt : ℚ → ℚ) (vectors : List PIVVector) (threshold : ℚ) :
    List PIVVector :=
  if vectors.length = 0 then vectors
  else
    let magnitudes := vectors.map (vecMag msqrt)
    let median := medianOf magnitudes
    let mad := medianOf (magnitudes.map (fun m => |m - median|))
    vectors.filter (fun v => decide (|vecMag msqrt v - median| ≤ threshold * mad))

/-- JavaScript truthiness of the optional `pixelsPerMM` number:
`null`/absent and `0` are falsy. -/
def jsTruthy (o : Option ℚ) : Bool := decide (o.getD 0 ≠ 0)

/-- `Math.max(...l)` over a possibly-empty list: `-Infinity` (`⊥`) on `[]`. -/
def jsMaxList (l : List ℚ) : WithBot ℚ :=
  l.foldl (fun (m : WithBot ℚ) (v : ℚ) => max m ((v : ℚ) : WithBot ℚ)) ⊥

/-- Statistics block of `calculateStatistics` in `server.js`; the three
`pixelsPerMM`-derived fields are only added to the object when a truthy
calibration is supplied, hence `Option`. -/
structure PIVStats where
  totalVectors : Nat
  validVectors : Nat
  meanU : ℚ
  meanV : ℚ
  stdU : ℚ
  stdV : ℚ
  maxVelocity : ℚ
  avgVelocity : ℚ
  pixelsPerMM : Option ℚ
  maxVelocityMM : Option ℚ
  avgVelocityMM : Option ℚ
deriving DecidableEq, Repr

/-- `calculateStatistics(vectors, pixelsPerMM)` of `server.js`: the empty
field short-circuits to an all-zero block (without calibration fields);
otherwise means, population standard deviations, velocity magnitudes, and
the physical-unit figures when the calibration scalar is truthy. -/
def calculateStatistics (msqrt : ℚ → ℚ) (vectors : List PIVVector)
    (pixelsPerMM : Option ℚ) : PIVStats :=
  if vectors.length = 0 then
    { totalVectors := 0, validVectors := 0, meanU := 0, meanV := 0, stdU := 0
      stdV := 0, maxVelocity := 0, avgVelocity := 0, pixelsPerMM := none
      maxVelocityMM := none, avgVelocityMM := none }
  else
    let meanU := sumQ (vectors.map (fun v => v.u)) / vectors.length
    let meanV := sumQ (vectors.map (fun v => v.v)) / vectors.length
    let varU := sumQ (vectors.map (fun v => (v.u - meanU) * (v.u - meanU))) / vectors.length
    let varV := sumQ (vectors.map (fun v => (v.v - meanV) * (v.v - meanV))) / vectors.length
    let velocities := vectors.map (vecMag msqrt)
    let maxVelocity := (jsMaxList velocities).unbot' 0
    let avgVelocity := sumQ velocities / velocities.length
    { totalVectors := vectors.length
      validVectors := vectors.length
      meanU := meanU
      meanV := meanV
      stdU := msqrt varU
      stdV := msqrt varV
      maxVelocity := maxVelocity
      avgVelocity := avgVelocity
      pixelsPerMM := if jsTruthy pixelsPerMM then pixelsPerMM else none
      maxVelocityMM := if jsTruthy pixelsPerMM then
        some (maxVelocity / pixelsPerMM.getD 0) else none
      avgVelocityMM := if jsTruthy pixelsPerMM then
        some (avgVelocity / pixelsPerMM.getD 0) else none }

/-- Result record of `phaseCorrelate`: `{ x, y, correlation }`. -/
structure PCResult where
  x : Int
  y : Int
  correlation : WithBot ℚ
deriving DecidableEq, Repr

/-- One step of the correlation sum of `phaseCorrelate` at pixel
`p = (x, y)`: raw product of template and shifted search samples; here both
shifted coordinates are bounds-checked individually (unlike the flat check
of `normalizedCrossCorrelation`). -/
def pcTerm (template search : List ℚ) (width height : Nat) (dx dy : Int)
    (acc : ℚ × Nat) (p : Nat × Nat) : ℚ × Nat :=
  let sx := (p.1 : Int) + dx
  let sy := (p.2 : Int) + dy
  if 0 ≤ sx ∧ sx < (width : Int) ∧ 0 ≤ sy ∧ sy < (height : Int) then
    (acc.1 + template.getD (p.2 * width + p.1) 0 * search.getD (sy * width + sx).toNat 0,
      acc.2 + 1)
  else acc

/-- The `(correlation, count)` pair of `phaseCorrelate`'s inner loops
`for y { for x { ... } }` at one offset. -/
def pcAccum (template search : List ℚ) (width height : Nat) (dx dy : Int) : ℚ × Nat :=
  (List.range height).foldl (fun acc y =>
    (List.range width).foldl (fun acc x =>
      pcTerm template search width height dx dy acc (x, y)) acc) (0, 0)

/-- Per-offset score of `phaseCorrelate`: `correlation / count`.  When
`count = 0` the JavaScript value is `0/0 = NaN`, which never beats the
running maximum; such offsets are scored `⊥`. -/
def pcScore (template search : List ℚ) (width height : Nat) (dx dy : Int) : WithBot ℚ :=
  let a := pcAccum template search width height dx dy
  if a.2 = 0 then ⊥ else ((a.1 / a.2 : ℚ) : WithBot ℚ)

/-- `phaseCorrelate(template, search, width, height)` of the
phase-correlation server: scan offsets in `±16` (hard-coded), running
maximum initialised to `-1`, and return `{ x: bestX, y: -bestY,
correlation: maxCorr }` — the vertical component is negated. -/
def phaseCorrelate (template search : List ℚ) (width height : Nat) : PCResult :=
  let b := runBest (fun o => pcScore template search width height o.1 o.2)
    (((-1 : ℚ) : WithBot ℚ), (0, 0)) (scanOffsets 16)
  ⟨b.2.1, -b.2.2, b.1⟩

/-- Population variance as `processImagePair` computes it:
`vectors.reduce((sq, n) => sq + Math.pow(n - mean, 2), 0) / vectors.length`. -/
def varQ (l : List ℚ) : ℚ :=
  l.foldl (fun sq n => sq + (n - meanQ l) * (n - meanQ l)) 0 / l.length

/-- The outlier-flagging maps of `processImagePair`:
`vectors.map(v => Math.abs(v - mean) < threshold * std ? v : NaN)`;
`NaN` is modelled by `none`. -/
def flagLine (vals : List ℚ) (mean std threshold : ℚ) : List (Option ℚ) :=
  vals.map (fun v => if |v - mean| < threshold * std then some v else none)

/-- Neighbour gathering of the local-median interpolation loop at index
`i`: indices within one step in both axes whose components are CURRENTLY
both non-`NaN` on the partially replaced arrays. -/
def lmfNbrs (ox oy : List ℚ) (stepSize : ℚ) (X Y : List (Option ℚ)) (i : Nat) :
    List Nat :=
  (List.range ox.length).filter (fun j =>
    decide (|ox.getD j 0 - ox.getD i 0| ≤ stepSize ∧
      |oy.getD j 0 - oy.getD i 0| ≤ stepSize ∧
      X.getD j none ≠ none ∧ Y.getD j none ≠ none))

/-- One iteration of the local-median interpolation loop of
`processImagePair` at index `i`: if either component is `NaN`, gather the
currently valid neighbours and overwrite position `i` with the per-axis
medians of their values; a suspect with no neighbour is left as `NaN`. -/
def lmfStep (ox oy : List ℚ) (stepSize : ℚ) (X Y : List (Option ℚ)) (i : Nat) :
    List (Option ℚ) × List (Option ℚ) :=
  if X.getD i none = none ∨ Y.getD i none = none then
    if 0 < (lmfNbrs ox oy stepSize X Y i).length then
      (X.set i (some (medianOf ((lmfNbrs ox oy stepSize X Y i).filterMap
          (fun j => X.getD j none)))),
       Y.set i (some (medianOf ((lmfNbrs ox oy stepSize X Y i).filterMap
          (fun j => Y.getD j none)))))
    else (X, Y)
  else (X, Y)

/-- The sequential driver of the local-median interpolation loop. -/
def lmfLoop (ox oy : List ℚ) (stepSize : ℚ) :
    List Nat → List (Option ℚ) × List (Option ℚ) → List (Option ℚ) × List (Option ℚ)
  | [], acc => acc
  | i :: rest, (X, Y) => lmfLoop ox oy stepSize rest (lmfStep ox oy stepSize X Y i)

/-- The whole local-median interpolation pass of `processImagePair`,
`for (let i = 0; i < originsX.length; i++) { ... }`, mutating the two
filtered component arrays in place. -/
def localMedianFilter (ox oy : List ℚ) (stepSize : ℚ) (fX fY : List (Option ℚ)) :
    List (Option ℚ) × List (Option ℚ) :=
  lmfLoop ox oy stepSize (List.range ox.length) (fX, fY)

/-- Replacement policy as the specification states it, for comparison with
`localMedianFilter`: a suspect vector's neighbours are drawn from the
entries that are not suspect in the ORIGINAL flagged arrays (never from
previously replaced suspects), and a suspect without such a neighbour keeps
its invalid marking. -/
def localReplaceSpecC7 (ox oy : List ℚ) (stepSize : ℚ) (fX fY : List (Option ℚ)) :
    List (Option ℚ) × List (Option ℚ) :=
  let nbrsOf := fun (i : Nat) => (List.range ox.length).filter (fun j =>
    decide (|ox.getD j 0 - ox.getD i 0| ≤ stepSize ∧
      |oy.getD j 0 - oy.getD i 0| ≤ stepSize ∧
      fX.getD j none ≠ none ∧ fY.getD j none ≠ none))
  let replaceWith := fun (f : List (Option ℚ)) (i : Nat) =>
    if fX.getD i none = none ∨ fY.getD i none = none then
      if 0 < (nbrsOf i).length then
        some (medianOf ((nbrsOf i).filterMap (fun j => f.getD j none)))
      else f.getD i none
    else f.getD i none
  ((List.range ox.length).map (replaceWith fX),
   (List.range ox.length).map (replaceWith fY))

/-- Statistics block assembled inline at the end of `processImagePair`.
`maxVelocity` is `Math.max` over the absolute values of the valid X
components — `-Infinity` (`⊥`) when no vector is valid; `avgVelocity`
averages the signed valid X components (a `0/0` division when empty,
modelled by rational `0/0 = 0`). -/
structure P7Stats where
  totalVectors : Nat
  validVectors : Nat
  meanX : ℚ
  meanY : ℚ
  stdX : ℚ
  stdY : ℚ
  maxVelocity : WithBot ℚ
  avgVelocity : ℚ
  pixelsPerMM : ℚ
  maxVelocityMM : WithBot ℚ
  avgVelocityMM : ℚ
deriving DecidableEq, Repr

/-- The statistics computation of `processImagePair`: valid vectors are the
non-`NaN` entries of the filtered X array; `pixelsPerMM` silently defaults
to `1` when no (truthy) calibration is supplied, and the `MM` figures are
always computed as `value / pixelsPerMM`. -/
def p7Statistics (msqrt : ℚ → ℚ) (vectorsX vectorsY : List ℚ)
    (filteredX : List (Option ℚ)) (calibration : Option ℚ) : P7Stats :=
  let validVectors := filteredX.filterMap id
  let maxVelocity := jsMaxList (validVectors.map (fun v => |v|))
  let avgVelocity := sumQ validVectors / validVectors.length
  let pixelsPerMM := if jsTruthy calibration then calibration.getD 0 else 1
  { totalVectors := vectorsX.length
    validVectors := validVectors.length
    meanX := meanQ vectorsX
    meanY := meanQ vectorsY
    stdX := msqrt (varQ vectorsX)
    stdY := msqrt (varQ vectorsY)
    maxVelocity := maxVelocity
    avgVelocity := avgVelocity
    pixelsPerMM := pixelsPerMM
    maxVelocityMM := maxVelocity.map (fun m => m / pixelsPerMM)
    avgVelocityMM := avgVelocity / pixelsPerMM }

/-- The per-offset correlation score exactly as claim C1 words it: template
mean subtracted from template samples ONLY, and a pixel `(i, j)` included
exactly when its two-dimensional shifted coordinates `(i + dx, j + dy)` lie
inside the `W × W` patch bounds. -/
def nccScoreSpecC1 (template search : List ℚ) (W : Nat) (std : ℚ)
    (dx dy : Int) : ℚ :=
  let m := meanQ template
  let ps := (pairList W).filter (fun p =>
    decide (0 ≤ (p.1 : Int) + dx ∧ (p.1 : Int) + dx < (W : Int) ∧
      0 ≤ (p.2 : Int) + dy ∧ (p.2 : Int) + dy < (W : Int)))
  let s := (ps.map (fun p => (template.getD (p.2 * W + p.1) 0 - m) *
    search.getD (((p.2 : Int) + dy) * W + ((p.1 : Int) + dx)).toNat 0)).sum
  s / (ps.length * std)

/-- The inlier vector of the outlier-rejection scenario: `(u, v) = (1, 0)`. -/
def unitVec : PIVVector := ⟨0, 0, 1, 0, ((1 : ℚ) : WithBot ℚ)⟩

/-- The outlier vector of the outlier-rejection scenario: `(u, v) = (10, 0)`. -/
def outlierVec : PIVVector := ⟨0, 0, 10, 0, ((1 : ℚ) : WithBot ℚ)⟩

/-- A textured 3×3 frame used by concrete grid examples. -/
def img3 : PIVImage := ⟨[0, 1, 0, 1, 0, 1, 0, 1, 0], 3, 3⟩

/-- A 4×4 frame smaller than the degenerate window size below. -/
def img4 : PIVImage := ⟨List.replicate 16 (1 : ℚ), 4, 4⟩

/-- A degenerate configuration: 8-pixel window on a 4×4 frame. -/
def cfgDegenerate : PIVConfigE :=
  { interrogationWindow := 8, overlap := 0, searchRange := 1
    minimumCorrelation := 1/10, subPixelAccuracy := true, outlierThreshold := 3 }

/-- A small valid configuration: 2-pixel window, no overlap, zero search
range, used to exercise `computePIVField` end to end. -/
def cfgSmall : PIVConfigE :=
  { interrogationWindow := 2, overlap := 0, searchRange := 0
    minimumCorrelation := 1/10, subPixelAccuracy := true, outlierThreshold := 3 }

/-- Search patch of the C1 counterexample. -/
def srchC1 : List ℚ := [4, 8, 12, 16]

theorem runBest_fst (score : Int × Int → WithBot ℚ) (i : WithBot ℚ) (d : Int × Int)
    (l : List (Int × Int)) :
    (runBest score (i, d) l).1 = l.foldl (fun m o => max m (score o)) i := by
  induction l generalizing i d with
  | nil => rfl
  | cons o rest ih =>
      simp only [runBest, List.foldl_cons]
      by_cases hc : i < score o
      · rw [if_pos hc, ih, max_eq_right hc.le]
      · rw [if_neg hc, ih, max_eq_left (not_lt.mp hc)]

theorem le_runBest_fst (score : Int × Int → WithBot ℚ) (i : WithBot ℚ) (d : Int × Int)
    (l : List (Int × Int)) : i ≤ (runBest score (i, d) l).1 := by
  induction l generalizing i d with
  | nil => exact le_rfl
  | cons o rest ih =>
      simp only [runBest]
      by_cases hc : i < score o
      · rw [if_pos hc]
        exact hc.le.trans (ih (score o) o)
      · rw [if_neg hc]
        exact ih i d

theorem runBest_of_not_lt (score : Int × Int → WithBot ℚ) (i : WithBot ℚ) (d : Int × Int)
    (l : List (Int × Int)) (h : ¬ i < (runBest score (i, d) l).1) :
    runBest score (i, d) l = (i, d) := by
  induction l generalizing i d with
  | nil => rfl
  | cons o rest ih =>
      simp only [runBest] at h ⊢
      by_cases hc : i < score o
      · rw [if_pos hc] at h
        exact absurd (lt_of_lt_of_le hc (le_runBest_fst score (score o) o rest)) h
      · rw [if_neg hc] at h ⊢
        exact ih i d h

theorem runBest_find (score : Int × Int → WithBot ℚ) (i : WithBot ℚ) (d : Int × Int)
    (l : List (Int × Int)) (h : i < (runBest score (i, d) l).1) :
    l.find? (fun o => decide (score o = (runBest score (i, d) l).1)) =
      some (runBest score (i, d) l).2 := by
  induction l generalizing i d with
  | nil => exact absurd h (lt_irrefl i)
  | cons o rest ih =>
      simp only [runBest] at h ⊢
      by_cases hc : i < score o
      · simp only [if_pos hc] at h ⊢
        by_cases he : score o = (runBest score (score o, o) rest).1
        · have hstay : runBest score (score o, o) rest = (score o, o) :=
            runBest_of_not_lt score (score o) o rest (by rw [← he]; exact lt_irrefl _)
          rw [hstay]
          exact List.find?_cons_of_pos _ (by simp)
        · have hlt : score o < (runBest score (score o, o) rest).1 :=
            lt_of_le_of_ne (le_runBest_fst score (score o) o rest) he
          rw [List.find?_cons_of_neg _ (by simp [he])]
          exact ih (score o) o hlt
      · simp only [if_neg hc] at h ⊢
        have hne : score o ≠ (runBest score (i, d) rest).1 :=
          fun he => hc (he ▸ h)
        rw [List.find?_cons_of_neg _ (by simp [hne])]
        exact ih i d h

/-- C5 (amended): for a template with nonzero (as computed) standard
deviation, the exhaustive strategy returns the offset whose score is the
maximum over the scan, and among tied offsets the one encountered FIRST in
scan order — `dy` from `-r` to `r` outer, `dx` from `-r` to `r` inner,
i.e. lexicographically smallest `(dy, dx)` counting from the most negative
— not the tied offset of smallest magnitude. -/
theorem ncc_returns_first_scan_argmax (msqrt : ℚ → ℚ) (template search : List ℚ)
    (windowSize searchRange : Nat)
    (hstd : msqrt (templateVar template) ≠ 0) :
    (normalizedCrossCorrelation msqrt template search windowSize searchRange).correlation
      = (scanOffsets searchRange).foldl
          (fun m o => max m (nccScoreOf msqrt template search windowSize o.1 o.2)) ⊥
    ∧ ((⊥ : WithBot ℚ) <
        (normalizedCrossCorrelation msqrt template search windowSize searchRange).correlation →
        (scanOffsets searchRange).find?
          (fun o => decide (nccScoreOf msqrt template search windowSize o.1 o.2 =
            (normalizedCrossCorrelation msqrt template search windowSize searchRange).correlation))
          = some ((normalizedCrossCorrelation msqrt template search windowSize searchRange).dx,
              (normalizedCrossCorrelation msqrt template search windowSize searchRange).dy)) := by
  simp only [normalizedCrossCorrelation, if_neg hstd]
  refine ⟨runBest_fst _ _ _ _, fun h => ?_⟩
  have hf := runBest_find (fun o => nccScoreOf msqrt template search windowSize o.1 o.2)
    ⊥ (0, 0) (scanOffsets searchRange) h
  simpa using hf

/-- C5 witness: on the striped 2×2 template correlated against itself with
search range 1, the hypothesis (nonzero computed standard deviation) holds
and the theorem applies. -/
theorem ncc_returns_first_scan_argmax_witness :
    (normalizedCrossCorrelation msqrtDemo tpl1 tpl1 2 1).correlation
      = (scanOffsets 1).foldl
          (fun m o => max m (nccScoreOf msqrtDemo tpl1 tpl1 2 o.1 o.2)) ⊥
    ∧ ((⊥ : WithBot ℚ) < (normalizedCrossCorrelation msqrtDemo tpl1 tpl1 2 1).correlation →
        (scanOffsets 1).find?
          (fun o => decide (nccScoreOf msqrtDemo tpl1 tpl1 2 o.1 o.2 =
            (normalizedCrossCorrelation msqrtDemo tpl1 tpl1 2 1).correlation))
          = some ((normalizedCrossCorrelation msqrtDemo tpl1 tpl1 2 1).dx,
              (normalizedCrossCorrelation msqrtDemo tpl1 tpl1 2 1).dy)) :=
  ncc_returns_first_scan_argmax msqrtDemo tpl1 tpl1 2 1
    (by norm_num [templateVar, meanQ, sumQ, sumSq, tpl1, msqrtDemo])

/-- C10: `phaseCorrelate` returns the horizontal component of the winning
offset unnegated and the vertical component negated: the returned
`(x, -y)` is the first scan-order offset attaining the maximal raw
correlation score (running maximum initialised to `-1`). -/
theorem phaseCorrelate_sign_convention (template search : List ℚ) (width height : Nat) :
    (phaseCorrelate template search width height).correlation
      = (scanOffsets 16).foldl
          (fun m o => max m (pcScore template search width height o.1 o.2))
          ((-1 : ℚ) : WithBot ℚ)
    ∧ (((-1 : ℚ) : WithBot ℚ) < (phaseCorrelate template search width height).correlation →
        (scanOffsets 16).find?
          (fun o => decide (pcScore template search width height o.1 o.2 =
            (phaseCorrelate template search width height).correlation))
          = some ((phaseCorrelate template search width height).x,
              -(phaseCorrelate template search width height).y)) := by
  have hc : (phaseCorrelate template search width height).correlation
      = (runBest (fun o => pcScore template search width height o.1 o.2)
          (((-1 : ℚ) : WithBot ℚ), (0, 0)) (scanOffsets 16)).1 := by
    simp only [phaseCorrelate]
  have hx : (phaseCorrelate template search width height).x
      = (runBest (fun o => pcScore template search width height o.1 o.2)
          (((-1 : ℚ) : WithBot ℚ), (0, 0)) (scanOffsets 16)).2.1 := by
    simp only [phaseCorrelate]
  have hy : -(phaseCorrelate template search width height).y
      = (runBest (fun o => pcScore template search width height o.1 o.2)
          (((-1 : ℚ) : WithBot ℚ), (0, 0)) (scanOffsets 16)).2.2 := by
    simp only [phaseCorrelate, neg_neg]
  refine ⟨?_, fun h => ?_⟩
  · rw [hc]
    exact runBest_fst _ _ _ _
  · rw [hx, hy]
    simp only [hc]
    rw [Prod.mk.eta]
    exact runBest_find _ _ _ _ (hc ▸ h)

/-- C10 witness: the theorem instantiated at a concrete 2×2 pair whose
bright pixel moves up one row. -/
theorem phaseCorrelate_sign_convention_witness :
    (phaseCorrelate [0,0,1,0] [1,0,0,0] 2 2).correlation
      = (scanOffsets 16).foldl
          (fun m o => max m (pcScore [0,0,1,0] [1,0,0,0] 2 2 o.1 o.2))
          ((-1 : ℚ) : WithBot ℚ)
    ∧ (((-1 : ℚ) : WithBot ℚ) < (phaseCorrelate [0,0,1,0] [1,0,0,0] 2 2).correlation →
        (scanOffsets 16).find?
          (fun o => decide (pcScore [0,0,1,0] [1,0,0,0] 2 2 o.1 o.2 =
            (phaseCorrelate [0,0,1,0] [1,0,0,0] 2 2).correlation))
          = some ((phaseCorrelate [0,0,1,0] [1,0,0,0] 2 2).x,
              -(phaseCorrelate [0,0,1,0] [1,0,0,0] 2 2).y)) :=
  phaseCorrelate_sign_convention [0,0,1,0] [1,0,0,0] 2 2

/-- C5 counterexample: on the striped template against itself the offsets
`(0,-1)`, `(0,0)` and `(0,1)` all tie at the maximal score `1/2`, yet the
function returns `(0,-1)` (first in scan order), not the smallest-magnitude
tied offset `(0,0)` that the specification promises. -/
theorem ncc_tie_goes_to_scan_order_not_magnitude :
    normalizedCrossCorrelation msqrtDemo tpl1 tpl1 2 1 =
      ⟨0, -1, ((1/2 : ℚ) : WithBot ℚ)⟩ ∧
    nccScoreOf msqrtDemo tpl1 tpl1 2 0 0 = ((1/2 : ℚ) : WithBot ℚ) := by
  have s00 : nccScoreOf msqrtDemo tpl1 tpl1 2 0 0 = ((1/2 : ℚ) : WithBot ℚ) := by
    norm_num [nccScoreOf, nccOffsetAccum, nccOffsetTerm, meanQ, sumQ, templateVar, sumSq,
      tpl1, msqrtDemo, List.range_succ, List.getElem_cons_succ, List.getElem_cons_zero,
      show ((0:Int).toNat = 0) from rfl, show ((1:Int).toNat = 1) from rfl,
      show ((2:Int).toNat = 2) from rfl, show ((3:Int).toNat = 3) from rfl]
  have sm1m1 : nccScoreOf msqrtDemo tpl1 tpl1 2 (-1) (-1) = ((-1/2 : ℚ) : WithBot ℚ) := by
    norm_num [nccScoreOf, nccOffsetAccum, nccOffsetTerm, meanQ, sumQ, templateVar, sumSq,
      tpl1, msqrtDemo, List.range_succ, List.getElem_cons_succ, List.getElem_cons_zero,
      show ((0:Int).toNat = 0) from rfl, show ((1:Int).toNat = 1) from rfl,
      show ((2:Int).toNat = 2) from rfl, show ((3:Int).toNat = 3) from rfl]
  have s0m1 : nccScoreOf msqrtDemo tpl1 tpl1 2 0 (-1) = ((1/2 : ℚ) : WithBot ℚ) := by
    norm_num [nccScoreOf, nccOffsetAccum, nccOffsetTerm, meanQ, sumQ, templateVar, sumSq,
      tpl1, msqrtDemo, List.range_succ, List.getElem_cons_succ, List.getElem_cons_zero,
      show ((0:Int).toNat = 0) from rfl, show ((1:Int).toNat = 1) from rfl,
      show ((2:Int).toNat = 2) from rfl, show ((3:Int).toNat = 3) from rfl]
  have s1m1 : nccScoreOf msqrtDemo tpl1 tpl1 2 1 (-1) = ((-1/2 : ℚ) : WithBot ℚ) := by
    norm_num [nccScoreOf, nccOffsetAccum, nccOffsetTerm, meanQ, sumQ, templateVar, sumSq,
      tpl1, msqrtDemo, List.range_succ, List.getElem_cons_succ, List.getElem_cons_zero,
      show ((0:Int).toNat = 0) from rfl, show ((1:Int).toNat = 1) from rfl,
      show ((2:Int).toNat = 2) from rfl, show ((3:Int).toNat = 3) from rfl]
  have sm10 : nccScoreOf msqrtDemo tpl1 tpl1 2 (-1) 0 = ((-1/2 : ℚ) : WithBot ℚ) := by
    norm_num [nccScoreOf, nccOffsetAccum, nccOffsetTerm, meanQ, sumQ, templateVar, sumSq,
      tpl1, msqrtDemo, List.range_succ, List.getElem_cons_succ, List.getElem_cons_zero,
      show ((0:Int).toNat = 0) from rfl, show ((1:Int).toNat = 1) from rfl,
      show ((2:Int).toNat = 2) from rfl, show ((3:Int).toNat = 3) from rfl]
  have s10 : nccScoreOf msqrtDemo tpl1 tpl1 2 1 0 = ((-1/2 : ℚ) : WithBot ℚ) := by
    norm_num [nccScoreOf, nccOffsetAccum, nccOffsetTerm, meanQ, sumQ, templateVar, sumSq,
      tpl1, msqrtDemo, List.range_succ, List.getElem_cons_succ, List.getElem_cons_zero,
      show ((0:Int).toNat = 0) from rfl, show ((1:Int).toNat = 1) from rfl,
      show ((2:Int).toNat = 2) from rfl, show ((3:Int).toNat = 3) from rfl]
  have sm11 : nccScoreOf msqrtDemo tpl1 tpl1 2 (-1) 1 = ((-1/2 : ℚ) : WithBot ℚ) := by
    norm_num [nccScoreOf, nccOffsetAccum, nccOffsetTerm, meanQ, sumQ, templateVar, sumSq,
      tpl1, msqrtDemo, List.range_succ, List.getElem_cons_succ, List.getElem_cons_zero,
      show ((0:Int).toNat = 0) from rfl, show ((1:Int).toNat = 1) from rfl,
      show ((2:Int).toNat = 2) from rfl, show ((3:Int).toNat = 3) from rfl]
  have s01 : nccScoreOf msqrtDemo tpl1 tpl1 2 0 1 = ((1/2 : ℚ) : WithBot ℚ) := by
    norm_num [nccScoreOf, nccOffsetAccum, nccOffsetTerm, meanQ, sumQ, templateVar, sumSq,
      tpl1, msqrtDemo, List.range_succ, List.getElem_cons_succ, List.getElem_cons_zero,
      show ((0:Int).toNat = 0) from rfl, show ((1:Int).toNat = 1) from rfl,
      show ((2:Int).toNat = 2) from rfl, show ((3:Int).toNat = 3) from rfl]
  have s11 : nccScoreOf msqrtDemo tpl1 tpl1 2 1 1 = ((-1/2 : ℚ) : WithBot ℚ) := by
    norm_num [nccScoreOf, nccOffsetAccum, nccOffsetTerm, meanQ, sumQ, templateVar, sumSq,
      tpl1, msqrtDemo, List.range_succ, List.getElem_cons_succ, List.getElem_cons_zero,
      show ((0:Int).toNat = 0) from rfl, show ((1:Int).toNat = 1) from rfl,
      show ((2:Int).toNat = 2) from rfl, show ((3:Int).toNat = 3) from rfl]
  have hstd : msqrtDemo (templateVar tpl1) ≠ 0 := by
    norm_num [templateVar, meanQ, sumQ, sumSq, tpl1, msqrtDemo]
  refine ⟨?_, s00⟩
  rw [normalizedCrossCorrelation, if_neg hstd,
    show scanOffsets 1 = [(-1,-1),(0,-1),(1,-1),(-1,0),(0,0),(1,0),(-1,1),(0,1),(1,1)]
      from by decide]
  simp only [runBest, sm1m1, s0m1, s1m1, sm10, s00, s10, sm11, s01, s11]
  norm_num [WithBot.coe_lt_coe, bot_lt_iff_ne_bot]

theorem foldl_flatMap_eq {A B C : Type} (l : List A) (inner : A → List B)
    (g : C → B → C) (acc : C) :
    (l.flatMap inner).foldl g acc
      = l.foldl (fun acc a => (inner a).foldl g acc) acc := by
  induction l generalizing acc with
  | nil => rfl
  | cons a rest ih => simp only [List.flatMap_cons, List.foldl_append, List.foldl_cons, ih]

theorem foldl_accum_filter {G : Type} (p : G → Prop) [DecidablePred p] (f : G → ℚ)
    (l : List G) (a : ℚ) (n : Nat) :
    l.foldl (fun acc x => if p x then (acc.1 + f x, acc.2 + 1) else acc) (a, n)
      = (a + ((l.filter (fun x => decide (p x))).map f).sum,
         n + (l.filter (fun x => decide (p x))).length) := by
  induction l generalizing a n with
  | nil => simp
  | cons x rest ih =>
      by_cases hx : p x
      · simp only [List.foldl_cons, if_pos hx, List.filter_cons,
          decide_eq_true_eq, hx, if_true, List.map_cons, List.sum_cons, List.length_cons, ih]
        refine Prod.ext ?_ ?_
        · push_cast
          ring
        · simp only []
          omega
      · simp only [List.foldl_cons, if_neg hx, List.filter_cons,
          decide_eq_true_eq, hx, if_false, ih]

/-- C1 (amended): the per-offset correlation score of the exhaustive
strategy equals the sum of `(template - mean) * (search - mean)` products —
the template mean is subtracted from BOTH factors — over exactly those
pixels `(i, j)` whose FLAT index `(j + dy) * W + (i + dx)` lies inside
`[0, search.length)` (a test that keeps pixels wrapped across row
boundaries for horizontal offsets), divided by
`included_count * template_std`; an offset including no pixel is skipped. -/
theorem nccScore_closed_form (msqrt : ℚ → ℚ) (template search : List ℚ)
    (W : Nat) (dx dy : Int) :
    nccScoreOf msqrt template search W dx dy =
      (let m := meanQ template
       let ps := (pairList W).filter (fun p =>
         decide (0 ≤ ((p.2 : Int) + dy) * W + ((p.1 : Int) + dx) ∧
           ((p.2 : Int) + dy) * W + ((p.1 : Int) + dx) < (search.length : Int)))
       if ps.length = 0 then (⊥ : WithBot ℚ)
       else ((((ps.map (fun p => (template.map (fun v => v - m)).getD (p.2 * W + p.1) 0 *
           (search.getD ((((p.2 : Int) + dy) * W + ((p.1 : Int) + dx))).toNat 0 - m))).sum
           / (ps.length * msqrt (templateVar template))) : ℚ) : WithBot ℚ)) := by
  have hacc : nccOffsetAccum (template.map (fun v => v - meanQ template)) search
      (meanQ template) W dx dy
      = (((pairList W).filter (fun p =>
          decide (0 ≤ ((p.2 : Int) + dy) * W + ((p.1 : Int) + dx) ∧
            ((p.2 : Int) + dy) * W + ((p.1 : Int) + dx) < (search.length : Int)))).map
            (fun p => (template.map (fun v => v - meanQ template)).getD (p.2 * W + p.1) 0 *
              (search.getD ((((p.2 : Int) + dy) * W + ((p.1 : Int) + dx))).toNat 0 -
                meanQ template)) |>.sum,
         ((pairList W).filter (fun p =>
          decide (0 ≤ ((p.2 : Int) + dy) * W + ((p.1 : Int) + dx) ∧
            ((p.2 : Int) + dy) * W + ((p.1 : Int) + dx) < (search.length : Int)))).length) := by
    have h1 : nccOffsetAccum (template.map (fun v => v - meanQ template)) search
        (meanQ template) W dx dy
        = (pairList W).foldl (nccOffsetTerm (template.map (fun v => v - meanQ template))
            search (meanQ template) W dx dy) (0, 0) := by
      rw [nccOffsetAccum, pairList, foldl_flatMap_eq]
      simp only [List.foldl_map]
    rw [h1]
    have h2 := foldl_accum_filter
      (fun p : Nat × Nat => 0 ≤ ((p.2 : Int) + dy) * W + ((p.1 : Int) + dx) ∧
        ((p.2 : Int) + dy) * W + ((p.1 : Int) + dx) < (search.length : Int))
      (fun p : Nat × Nat => (template.map (fun v => v - meanQ template)).getD (p.2 * W + p.1) 0 *
        (search.getD ((((p.2 : Int) + dy) * W + ((p.1 : Int) + dx))).toNat 0 - meanQ template))
      (pairList W) 0 0
    simp only [zero_add, Nat.zero_add] at h2
    rw [← h2]
    rfl
  rw [nccScoreOf, hacc]

/-- C1 counterexample: on the striped template with search patch
`[4, 8, 12, 16]` at in-range offset `(-1, 0)` (template std `1/2 ≠ 0`), the
code's score is `5/2` while the formula the claim states — overlap limited
to pixels whose 2-D shifted coordinates stay in bounds, mean subtracted
from template samples only — gives `8`. -/
theorem nccScore_spec_formula_fails :
    nccScoreOf msqrtDemo tpl1 srchC1 2 (-1) 0 = ((5/2 : ℚ) : WithBot ℚ)
    ∧ nccScoreSpecC1 tpl1 srchC1 2 (1/2) (-1) 0 = 8
    ∧ msqrtDemo (templateVar tpl1) = 1/2 := by
  refine ⟨?_, ?_, ?_⟩
  · norm_num [nccScoreOf, nccOffsetAccum, nccOffsetTerm, meanQ, sumQ, templateVar, sumSq,
      tpl1, srchC1, msqrtDemo, List.range_succ, List.getElem_cons_succ, List.getElem_cons_zero,
      show ((0:Int).toNat = 0) from rfl, show ((1:Int).toNat = 1) from rfl,
      show ((2:Int).toNat = 2) from rfl, show ((3:Int).toNat = 3) from rfl]
  · norm_num [nccScoreSpecC1, pairList, meanQ, sumQ, tpl1, srchC1, List.range_succ,
      List.getElem_cons_succ, List.getElem_cons_zero,
      show ((0:Int).toNat = 0) from rfl, show ((1:Int).toNat = 1) from rfl,
      show ((2:Int).toNat = 2) from rfl, show ((3:Int).toNat = 3) from rfl]
  · norm_num [templateVar, meanQ, sumQ, sumSq, tpl1, msqrtDemo]

theorem gridPositions_of_nonpos (bound step : Int) (h : bound ≤ 0) :
    gridPositions bound step = [] := by
  rw [gridPositions]
  split
  · next hs =>
      have h0 : (bound.toNat + step.toNat - 1) / step.toNat = 0 :=
        Nat.div_eq_of_lt (by omega)
      rw [h0]
      rfl
  · rfl

/-- C2 (amended): a window size exceeding either frame dimension makes
`computePIVField` terminate normally with the EMPTY vector list — the code
contains no configuration validation and raises no `InvalidInput` error.
(The other degenerate case, derived step `≤ 0` with a window that fits,
makes the JavaScript `for` loop spin forever rather than raise; the
embedding's grid enumeration is defined for positive steps only.) -/
theorem computePIVField_empty_of_oversized_window (msqrt : ℚ → ℚ)
    (image1 image2 : PIVImage) (config : PIVConfigE)
    (h : image1.width < config.interrogationWindow ∨
      image1.height < config.interrogationWindow) :
    computePIVField msqrt image1 image2 config = [] := by
  rcases h with h | h
  · have hx : ∀ st : Int,
        gridPositions ((image1.width : Int) - config.interrogationWindow) st = [] :=
      fun st => gridPositions_of_nonpos _ st (by omega)
    simp [computePIVField, hx, List.flatMap_eq_nil_iff]
  · have hy : ∀ st : Int,
        gridPositions ((image1.height : Int) - config.interrogationWindow) st = [] :=
      fun st => gridPositions_of_nonpos _ st (by omega)
    simp [computePIVField, hy]

/-- C2 witness: the 8-pixel window of the degenerate configuration exceeds
the 3-pixel frame width, and the theorem applies. -/
theorem computePIVField_empty_of_oversized_window_witness :
    computePIVField msqrtDemo img3 img3 cfgDegenerate = [] :=
  computePIVField_empty_of_oversized_window msqrtDemo img3 img3 cfgDegenerate
    (Or.inl (by decide))

/-- C2 counterexample: on a 4×4 frame pair with an 8-pixel window —
a degenerate configuration in the claim's sense — `computePIVField`
terminates normally and silently returns the empty list; no error of any
kind is raised on this code path. -/
theorem computePIVField_degenerate_is_silent :
    computePIVField msqrtDemo img4 img4 cfgDegenerate = []
    ∧ img4.width < cfgDegenerate.interrogationWindow := by
  refine ⟨?_, by decide⟩
  have hx : ∀ st : Int,
      gridPositions ((img4.width : Int) - cfgDegenerate.interrogationWindow) st = [] :=
    fun st => gridPositions_of_nonpos _ st (by decide)
  simp [computePIVField, hx, List.flatMap_eq_nil_iff]

theorem sorted_replicate_append (a b : ℚ) (n : Nat) (hab : a ≤ b) :
    List.Sorted (· ≤ ·) (List.replicate n a ++ [b]) := by
  induction n with
  | zero => simp
  | succ k ih =>
      rw [List.replicate_succ, List.cons_append]
      refine List.sorted_cons.mpr ⟨?_, ih⟩
      intro x hx
      rcases List.mem_append.mp hx with hx | hx
      · rw [List.eq_of_mem_replicate hx]
      · rw [List.mem_singleton.mp hx]
        exact hab

theorem getD_replicate_append (a d : ℚ) (n i : Nat) (l : List ℚ) (h : i < n) :
    (List.replicate n a ++ l).getD i d = a := by
  rw [List.getD_append _ _ _ _ (by simpa using h), List.getD_eq_getElem _ _ (by simpa using h)]
  simp

theorem medianOf_replicate_append (a b : ℚ) (n : Nat) (h2 : 2 ≤ n) (hab : a ≤ b) :
    medianOf (List.replicate n a ++ [b]) = a := by
  rw [medianOf, List.Sorted.insertionSort_eq (sorted_replicate_append a b n hab)]
  refine getD_replicate_append a 0 n _ [b] ?_
  simp only [List.length_append, List.length_replicate, List.length_singleton]
  omega

theorem filter_replicate_list {α : Type} (n : Nat) (p : α → Bool) (a : α) :
    (List.replicate n a).filter p = if p a then List.replicate n a else [] := by
  induction n with
  | zero => simp
  | succ k ih =>
      rw [List.replicate_succ, List.filter_cons]
      by_cases h : p a
      · simp only [h, if_true, ih, List.replicate_succ]
      · simp [h, ih]

/-- C3 (amended): with the default threshold 3, on a field of `n + 1 ≥ 3`
vectors all `(1, 0)` except one `(10, 0)` outlier, `removeOutliers` REMOVES
exactly the outlier from the returned list — it is dropped entirely, not
kept with an invalid mark — and returns the other `n` vectors unchanged.
The gate is `|magnitude - median| ≤ threshold * MAD` with median and MAD
taken over all magnitudes. -/
theorem removeOutliers_drops_exactly_outlier (msqrt : ℚ → ℚ) (n : Nat)
    (hn : 2 ≤ n) (h1 : msqrt 1 = 1) (h100 : msqrt 100 = 10) :
    removeOutliers msqrt (List.replicate n unitVec ++ [outlierVec]) 3
      = List.replicate n unitVec := by
  have hmagU : vecMag msqrt unitVec = 1 := by
    rw [vecMag]
    norm_num [unitVec, h1]
  have hmagO : vecMag msqrt outlierVec = 10 := by
    rw [vecMag]
    norm_num [outlierVec, h100]
  have hmaps : (List.replicate n unitVec ++ [outlierVec]).map (vecMag msqrt)
      = List.replicate n 1 ++ [10] := by
    rw [List.map_append, List.map_replicate, hmagU]
    simp [hmagO]
  have hmed : medianOf (List.replicate n (1:ℚ) ++ [10]) = 1 :=
    medianOf_replicate_append 1 10 n hn (by norm_num)
  have hdevs : (List.replicate n (1:ℚ) ++ [10]).map (fun m => |m - 1|)
      = List.replicate n 0 ++ [9] := by
    rw [List.map_append, List.map_replicate]
    norm_num
  have hmad : medianOf (List.replicate n (0:ℚ) ++ [9]) = 0 :=
    medianOf_replicate_append 0 9 n hn (by norm_num)
  have hlen : (List.replicate n unitVec ++ [outlierVec]).length ≠ 0 := by
    simp
  rw [removeOutliers, if_neg hlen, hmaps]
  simp only [hmed, hdevs, hmad]
  rw [List.filter_append, filter_replicate_list]
  have hd1 : decide (|vecMag msqrt unitVec - 1| ≤ 3 * 0) = true := by
    simp [hmagU]
  have hd2 : decide (|vecMag msqrt outlierVec - 1| ≤ 3 * 0) = false := by
    simp only [hmagO]
    norm_num
  rw [hd1]
  simp only [if_true, List.filter_cons, hd2, Bool.false_eq_true, if_false, List.filter_nil,
    List.append_nil]

/-- C3 witness: the theorem applied at a five-vector field (four inliers,
one outlier) with the demonstration square root. -/
theorem removeOutliers_drops_exactly_outlier_witness :
    removeOutliers msqrtDemo (List.replicate 4 unitVec ++ [outlierVec]) 3
      = List.replicate 4 unitVec :=
  removeOutliers_drops_exactly_outlier msqrtDemo 4 (by norm_num)
    (by norm_num [msqrtDemo]) (by norm_num [msqrtDemo])

/-- C3 counterexample: the outlier is present in the input field but ABSENT
from the list `removeOutliers` returns — invalid vectors do not remain in
the field, contradicting the claim that they are only marked invalid while
staying present. -/
theorem removeOutliers_removes_rather_than_flags :
    outlierVec ∈ List.replicate 4 unitVec ++ [outlierVec]
    ∧ outlierVec ∉ removeOutliers msqrtDemo (List.replicate 4 unitVec ++ [outlierVec]) 3 := by
  have hmagU : vecMag msqrtDemo unitVec = 1 := by
    rw [vecMag]
    norm_num [unitVec, msqrtDemo]
  have hmagO : vecMag msqrtDemo outlierVec = 10 := by
    rw [vecMag]
    norm_num [outlierVec, msqrtDemo]
  have hmaps : (List.replicate 4 unitVec ++ [outlierVec]).map (vecMag msqrtDemo)
      = List.replicate 4 1 ++ [10] := by
    rw [List.map_append, List.map_replicate, hmagU]
    simp [hmagO]
  have hmed : medianOf (List.replicate 4 (1:ℚ) ++ [10]) = 1 :=
    medianOf_replicate_append 1 10 4 (by norm_num) (by norm_num)
  have hdevs : (List.replicate 4 (1:ℚ) ++ [10]).map (fun m => |m - 1|)
      = List.replicate 4 0 ++ [9] := by
    rw [List.map_append, List.map_replicate]
    norm_num
  have hmad : medianOf (List.replicate 4 (0:ℚ) ++ [9]) = 0 :=
    medianOf_replicate_append 0 9 4 (by norm_num) (by norm_num)
  have heq : removeOutliers msqrtDemo (List.replicate 4 unitVec ++ [outlierVec]) 3
      = List.replicate 4 unitVec := by
    rw [removeOutliers, if_neg (by simp), hmaps]
    simp only [hmed, hdevs, hmad]
    rw [List.filter_append, filter_replicate_list]
    have hd1 : decide (|vecMag msqrtDemo unitVec - 1| ≤ 3 * 0) = true := by
      simp [hmagU]
    have hd2 : decide (|vecMag msqrtDemo outlierVec - 1| ≤ 3 * 0) = false := by
      simp only [hmagO]
      norm_num
    rw [hd1]
    simp only [if_true, List.filter_cons, hd2, Bool.false_eq_true, if_false, List.filter_nil,
      List.append_nil]
  refine ⟨by simp, ?_⟩
  rw [heq]
  simp only [List.mem_replicate, not_and]
  intro hne
  simp only [outlierVec, unitVec, PIVVector.mk.injEq]
  norm_num

/-- C4: a template patch with zero population variance — zero standard
deviation, as `sqrt 0 = 0` — makes `normalizedCrossCorrelation` return the
defined degenerate result, offset `(0, 0)` with correlation `0`, for every
search patch and search range.  The function is total: no error is raised
on this path. -/
theorem ncc_flat_template_returns_zero (msqrt : ℚ → ℚ) (template search : List ℚ)
    (windowSize searchRange : Nat)
    (hvar : templateVar template = 0) (h0 : msqrt 0 = 0) :
    normalizedCrossCorrelation msqrt template search windowSize searchRange
      = ⟨0, 0, ((0 : ℚ) : WithBot ℚ)⟩ := by
  simp [normalizedCrossCorrelation, hvar, h0]

/-- C4 witness: the flat patch `[5, 5, 5, 5]` has zero variance; the
engine returns the degenerate result on it. -/
theorem ncc_flat_template_returns_zero_witness :
    normalizedCrossCorrelation msqrtDemo [5, 5, 5, 5] [1, 2, 3, 4] 2 1
      = ⟨0, 0, ((0 : ℚ) : WithBot ℚ)⟩ :=
  ncc_flat_template_returns_zero msqrtDemo [5, 5, 5, 5] [1, 2, 3, 4] 2 1
    (by norm_num [templateVar, meanQ, sumQ, sumSq]) (by norm_num [msqrtDemo])

/-- C6 (amended): `calculateStatistics` of the DCC server returns the
all-zero statistics block — zero counts, means, standard deviations and
velocity figures, with the physical fields absent — on the empty vector
list, whatever the calibration argument; no division is attempted.  The
phase-correlation server's inline statistics do NOT share this property
(see the counterexample). -/
theorem calculateStatistics_empty_all_zero (msqrt : ℚ → ℚ) (c : Option ℚ) :
    calculateStatistics msqrt [] c
      = { totalVectors := 0, validVectors := 0, meanU := 0, meanV := 0, stdU := 0
          stdV := 0, maxVelocity := 0, avgVelocity := 0, pixelsPerMM := none
          maxVelocityMM := none, avgVelocityMM := none } := rfl

/-- C6 counterexample: the phase-correlation server's inline statistics on
an empty valid-vector set yield `Math.max() = -Infinity` (modelled `⊥`) as
the maximum velocity — an infinite value, not the claimed zero (and its
average figure is a `0/0` division in the JavaScript). -/
theorem p7Statistics_empty_max_is_bot :
    (p7Statistics msqrtDemo [] [] [] none).maxVelocity = ⊥
    ∧ (p7Statistics msqrtDemo [] [] [] none).maxVelocity ≠ ((0 : ℚ) : WithBot ℚ) := by
  exact ⟨rfl, by decide⟩

/-- C9 (amended): with a positive calibration scalar `c`, the DCC server's
statistics carry physical figures equal to the pixel figures divided by
`c` on a nonempty field, and omit the physical fields when no calibration
is supplied; the phase-correlation server instead defaults the factor to
`1` when no calibration is supplied and always emits physical figures
(then equal to the pixel figures).  Neither treats absence as a zero
factor. -/
theorem calibration_division_behaviour (msqrt : ℚ → ℚ) (vectors : List PIVVector)
    (vx vy : List ℚ) (fx : List (Option ℚ)) (c : ℚ)
    (hc : 0 < c) (hne : vectors ≠ []) :
    (calculateStatistics msqrt vectors (some c)).maxVelocityMM
        = some ((calculateStatistics msqrt vectors (some c)).maxVelocity / c)
    ∧ (calculateStatistics msqrt vectors (some c)).avgVelocityMM
        = some ((calculateStatistics msqrt vectors (some c)).avgVelocity / c)
    ∧ (calculateStatistics msqrt vectors none).maxVelocityMM = none
    ∧ (calculateStatistics msqrt vectors none).avgVelocityMM = none
    ∧ (p7Statistics msqrt vx vy fx (some c)).pixelsPerMM = c
    ∧ (p7Statistics msqrt vx vy fx (some c)).maxVelocityMM
        = ((p7Statistics msqrt vx vy fx (some c)).maxVelocity).map (fun m => m / c)
    ∧ (p7Statistics msqrt vx vy fx none).pixelsPerMM = 1
    ∧ (p7Statistics msqrt vx vy fx none).maxVelocityMM
        = ((p7Statistics msqrt vx vy fx none).maxVelocity).map (fun m => m / 1) := by
  have ht : jsTruthy (some c) = true := by
    simp [jsTruthy, hc.ne']
  have hf : jsTruthy none = false := by
    simp [jsTruthy]
  refine ⟨?_, ?_, ?_, ?_, ?_, ?_, ?_, ?_⟩
  · simp [calculateStatistics, ht, hne]
  · simp [calculateStatistics, ht, hne]
  · rw [calculateStatistics]
    split
    · rfl
    · simp [hf]
  · rw [calculateStatistics]
    split
    · rfl
    · simp [hf]
  · simp [p7Statistics, ht]
  · simp [p7Statistics, ht]
  · simp [p7Statistics, hf]
  · simp [p7Statistics, hf]

/-- C9 witness: the theorem applied to a one-vector field and calibration
factor 2. -/
theorem calibration_division_behaviour_witness :
    (calculateStatistics msqrtDemo [unitVec] (some 2)).maxVelocityMM
        = some ((calculateStatistics msqrtDemo [unitVec] (some 2)).maxVelocity / 2)
    ∧ (calculateStatistics msqrtDemo [unitVec] (some 2)).avgVelocityMM
        = some ((calculateStatistics msqrtDemo [unitVec] (some 2)).avgVelocity / 2)
    ∧ (calculateStatistics msqrtDemo [unitVec] none).maxVelocityMM = none
    ∧ (calculateStatistics msqrtDemo [unitVec] none).avgVelocityMM = none
    ∧ (p7Statistics msqrtDemo [3] [0] [some 3] (some 2)).pixelsPerMM = 2
    ∧ (p7Statistics msqrtDemo [3] [0] [some 3] (some 2)).maxVelocityMM
        = ((p7Statistics msqrtDemo [3] [0] [some 3] (some 2)).maxVelocity).map (fun m => m / 2)
    ∧ (p7Statistics msqrtDemo [3] [0] [some 3] none).pixelsPerMM = 1
    ∧ (p7Statistics msqrtDemo [3] [0] [some 3] none).maxVelocityMM
        = ((p7Statistics msqrtDemo [3] [0] [some 3] none).maxVelocity).map (fun m => m / 1) :=
  calibration_division_behaviour msqrtDemo [unitVec] [3] [0] [some 3] 2
    (by norm_num) (by simp)

/-- C9 counterexample: with NO calibration supplied, the phase-correlation
server still populates the physical-unit figure — `maxVelocityMM` is a
present value equal to the pixel-domain maximum (factor silently 1) — so
"no physical conversion is performed" fails on this server. -/
theorem p7_calibration_absent_still_converts :
    (p7Statistics msqrtDemo [3] [0] [some 3] none).maxVelocityMM = ((3 : ℚ) : WithBot ℚ)
    ∧ (p7Statistics msqrtDemo [3] [0] [some 3] none).pixelsPerMM = 1 := by
  have hv : (([some (3:ℚ)] : List (Option ℚ)).filterMap id) = [3] := by simp
  have hm : jsMaxList (([(3:ℚ)]).map (fun v => |v|)) = ((3 : ℚ) : WithBot ℚ) := by
    rw [show ([(3:ℚ)]).map (fun v => |v|) = [3] from by norm_num]
    rw [jsMaxList, List.foldl_cons, List.foldl_nil]
    exact max_eq_right bot_le
  constructor
  · rw [p7Statistics]
    simp only [hv, hm, jsTruthy]
    norm_num [WithBot.map_coe]
    rfl
  · norm_num [p7Statistics, jsTruthy]

theorem getD_set_ne {α : Type} (l : List α) (k i : Nat) (v d : α) (h : k ≠ i) :
    (l.set k v).getD i d = l.getD i d := by
  rw [List.getD_eq_getD_get?, List.getD_eq_getD_get?, List.get?_eq_getElem?,
    List.get?_eq_getElem?, List.getElem?_set_ne h]

theorem lmfLoop_preserves_nonsuspect (ox oy : List ℚ) (stepSize : ℚ) (l : List Nat)
    (X Y : List (Option ℚ)) (i : Nat) (a b : ℚ)
    (hX : X.getD i none = some a) (hY : Y.getD i none = some b) :
    (lmfLoop ox oy stepSize l (X, Y)).1.getD i none = some a
    ∧ (lmfLoop ox oy stepSize l (X, Y)).2.getD i none = some b := by
  induction l generalizing X Y with
  | nil => exact ⟨hX, hY⟩
  | cons k rest ih =>
      rw [lmfLoop]
      by_cases hk : k = i
      · subst hk
        have hcond : ¬ (X.getD k none = none ∨ Y.getD k none = none) := by
          intro hc
          rcases hc with hc | hc
          · rw [hX] at hc
            exact Option.noConfusion hc
          · rw [hY] at hc
            exact Option.noConfusion hc
        rw [lmfStep, if_neg hcond]
        exact ih X Y hX hY
      · rw [lmfStep]
        split
        · split
          · exact ih _ _
              (by rw [getD_set_ne _ _ _ _ _ hk]; exact hX)
              (by rw [getD_set_ne _ _ _ _ _ hk]; exact hY)
          · exact ih X Y hX hY
        · exact ih X Y hX hY

/-- C7 (amended): in the local replacement pass, (i) a component is flagged
suspect (`NaN`, modelled `none`) exactly when `|value - mean| ≥ threshold *
std`, and (ii) a vector that is suspect on neither component is left
completely untouched by the sequential median-replacement loop.  The
replacement itself, however, is sequential over the mutated arrays: a
later suspect's neighbours are the entries CURRENTLY non-`NaN`, which
includes earlier suspects already replaced during the same pass, and a
suspect with no such neighbour keeps its `NaN` marking instead of
recovering its original value (see the counterexample). -/
theorem localReplacement_nonsuspect_untouched
    (vals : List ℚ) (mean std threshold : ℚ) (k : Nat) (hk : k < vals.length)
    (ox oy : List ℚ) (stepSize : ℚ) (fX fY : List (Option ℚ)) (i : Nat) (a b : ℚ)
    (hX : fX.getD i none = some a) (hY : fY.getD i none = some b) :
    ((flagLine vals mean std threshold).getD k none = none ↔
      threshold * std ≤ |vals.getD k 0 - mean|)
    ∧ (localMedianFilter ox oy stepSize fX fY).1.getD i none = some a
    ∧ (localMedianFilter ox oy stepSize fX fY).2.getD i none = some b := by
  refine ⟨?_, ?_, ?_⟩
  · have hkv : vals.getD k 0 = vals[k] := List.getD_eq_getElem _ _ (by simpa using hk)
    rw [flagLine, List.getD_eq_getElem _ _ (by simpa using hk), List.getElem_map, hkv]
    split
    · next h => exact iff_of_false (by simp) (not_le.mpr h)
    · next h => exact iff_of_true rfl (not_lt.mp h)
  · exact (lmfLoop_preserves_nonsuspect ox oy stepSize _ fX fY i a b hX hY).1
  · exact (lmfLoop_preserves_nonsuspect ox oy stepSize _ fX fY i a b hX hY).2

/-- C7 witness: the flagging criterion at the outlier entry of `[0, 10]`
(mean 0, std 1, threshold 1), and the untouched non-suspect entry 0 of the
three-point replacement scenario. -/
theorem localReplacement_nonsuspect_untouched_witness :
    (((flagLine [0, 10] 0 1 1).getD 1 none = none ↔
      (1 : ℚ) * 1 ≤ |([0, 10] : List ℚ).getD 1 0 - 0|)
    ∧ (localMedianFilter [0, 1, 2] [0, 0, 0] 1 [some 5, none, none]
        [some 0, some 0, some 0]).1.getD 0 none = some 5
    ∧ (localMedianFilter [0, 1, 2] [0, 0, 0] 1 [some 5, none, none]
        [some 0, some 0, some 0]).2.getD 0 none = some 0) :=
  localReplacement_nonsuspect_untouched [0, 10] 0 1 1 1 (by decide)
    [0, 1, 2] [0, 0, 0] 1 [some 5, none, none] [some 0, some 0, some 0] 0 5 0 rfl rfl

/-- C7 counterexample: origins `0, 1, 2` one step apart with flagged arrays
X = `[5, NaN, NaN]`, Y = `[0, 0, 0]`.  The code's sequential pass first
replaces index 1 (neighbour 0, median 5) and then replaces index 2 using
the ALREADY-REPLACED suspect at index 1 as its only neighbour, returning
X = `[5, 5, 5]`; under the policy the claim states — neighbours drawn from
the original non-suspect entries only — index 2 has no qualifying
neighbour and must stay invalid: `[5, 5, NaN]`. -/
theorem localMedianFilter_uses_replaced_suspects :
    (localMedianFilter [0, 1, 2] [0, 0, 0] 1 [some 5, none, none]
        [some 0, some 0, some 0]).1 = [some 5, some 5, some 5]
    ∧ (localReplaceSpecC7 [0, 1, 2] [0, 0, 0] 1 [some 5, none, none]
        [some 0, some 0, some 0]).1 = [some 5, some 5, none] := by
  have h0 : lmfStep [0, 1, 2] [0, 0, 0] 1 [some 5, none, none] [some 0, some 0, some 0] 0
      = ([some 5, none, none], [some 0, some 0, some 0]) := by
    rw [lmfStep, if_neg (by decide)]
  have hn1 : lmfNbrs [0, 1, 2] [0, 0, 0] 1 [some 5, none, none] [some 0, some 0, some 0] 1
      = [0] := by
    norm_num [lmfNbrs, List.range_succ, List.filter_cons, List.getD_cons_zero,
      List.getD_cons_succ, Option.some_ne_none]
  have h1 : lmfStep [0, 1, 2] [0, 0, 0] 1 [some 5, none, none] [some 0, some 0, some 0] 1
      = ([some 5, some 5, none], [some 0, some 0, some 0]) := by
    rw [lmfStep, if_pos (by decide), hn1]
    norm_num [medianOf, List.insertionSort, List.orderedInsert, List.filterMap_cons,
      List.getD_cons_zero, List.getD_cons_succ, List.set]
  have hn2 : lmfNbrs [0, 1, 2] [0, 0, 0] 1 [some 5, some 5, none] [some 0, some 0, some 0] 2
      = [1] := by
    norm_num [lmfNbrs, List.range_succ, List.filter_cons, List.getD_cons_zero,
      List.getD_cons_succ, Option.some_ne_none]
  have h2 : lmfStep [0, 1, 2] [0, 0, 0] 1 [some 5, some 5, none] [some 0, some 0, some 0] 2
      = ([some 5, some 5, some 5], [some 0, some 0, some 0]) := by
    rw [lmfStep, if_pos (by decide), hn2]
    norm_num [medianOf, List.insertionSort, List.orderedInsert, List.filterMap_cons,
      List.getD_cons_zero, List.getD_cons_succ, List.set]
  constructor
  · rw [localMedianFilter, show List.range (([0, 1, 2] : List ℚ).length) = [0, 1, 2]
      from by decide]
    rw [lmfLoop, h0, lmfLoop, h1, lmfLoop, h2, lmfLoop]
  · rw [localReplaceSpecC7]
    norm_num [medianOf, List.range_succ, List.insertionSort, List.orderedInsert,
      List.filter_cons, List.filterMap_cons, List.getD_cons_zero, List.getD_cons_succ]
    decide

/-- C8: the shipped configuration enables `subPixelAccuracy`, yet no code
path reads it — `computePIVField` copies the integer offsets `dx, dy`
straight into `u, v`, so every emitted displacement component is an
integer-valued rational (denominator 1); no parabolic or Gaussian
sub-pixel refinement exists anywhere in the server. -/
theorem subpixel_flag_ignored (msqrt : ℚ → ℚ) (image1 image2 : PIVImage)
    (config : PIVConfigE) (v : PIVVector)
    (hv : v ∈ computePIVField msqrt image1 image2 config) :
    PIV_CONFIG.subPixelAccuracy = true ∧ v.u.den = 1 ∧ v.v.den = 1 := by
  refine ⟨rfl, ?_⟩
  simp only [computePIVField, List.mem_flatMap, List.mem_filterMap] at hv
  obtain ⟨y, hy, x, hx, hv⟩ := hv
  split at hv
  · rw [Option.some_inj] at hv
    rw [← hv]
    exact ⟨Rat.den_intCast _, Rat.den_intCast _⟩
  · exact Option.noConfusion hv

theorem computePIVField_img3_eval :
    computePIVField msqrtDemo img3 img3 cfgSmall
    = [⟨1, 1, 0, 0, ((1/2 : ℚ) : WithBot ℚ)⟩] := by
  have hw : extractWindow [0, 1, 0, 1, 0, 1, 0, 1, 0] 3 3 0 0 2 = [0, 1, 1, 0] := by
    norm_num [extractWindow, List.range_succ, List.getD_cons_zero, List.getD_cons_succ,
      show ((0:Int).toNat = 0) from rfl, show ((1:Int).toNat = 1) from rfl,
      show ((3:Int).toNat = 3) from rfl, show ((4:Int).toNat = 4) from rfl]
  have hscore : nccScoreOf msqrtDemo [0, 1, 1, 0] [0, 1, 1, 0] 2 0 0
      = ((1/2 : ℚ) : WithBot ℚ) := by
    norm_num [nccScoreOf, nccOffsetAccum, nccOffsetTerm, meanQ, sumQ, templateVar, sumSq,
      msqrtDemo, List.range_succ, List.getElem_cons_succ, List.getElem_cons_zero,
      show ((0:Int).toNat = 0) from rfl, show ((1:Int).toNat = 1) from rfl,
      show ((2:Int).toNat = 2) from rfl, show ((3:Int).toNat = 3) from rfl]
  have hncc : normalizedCrossCorrelation msqrtDemo [0, 1, 1, 0] [0, 1, 1, 0] 2 0
      = ⟨0, 0, ((1/2 : ℚ) : WithBot ℚ)⟩ := by
    rw [normalizedCrossCorrelation,
      if_neg (by norm_num [templateVar, meanQ, sumQ, sumSq, msqrtDemo]),
      show scanOffsets 0 = [(0, 0)] from by decide]
    simp only [runBest, hscore]
    norm_num
  have hstep : Int.floor (((2 : Nat) : ℚ) * (1 - (0 : ℚ))) = 2 := by norm_num
  have hgp : gridPositions (1 : Int) 2 = [0] := by decide
  rw [computePIVField]
  simp only [cfgSmall, img3, hstep]
  norm_num [hgp, hw, hncc, WithBot.coe_le_coe, List.filterMap_cons, List.filterMap_nil]

/-- C8 witness: a concrete vector of the field computed on the striped 3×3
frame pair; the theorem applies to it and its components are integers. -/
theorem subpixel_flag_ignored_witness :
    (⟨1, 1, 0, 0, ((1/2 : ℚ) : WithBot ℚ)⟩ : PIVVector)
        ∈ computePIVField msqrtDemo img3 img3 cfgSmall
    ∧ PIV_CONFIG.subPixelAccuracy = true
    ∧ (⟨1, 1, 0, 0, ((1/2 : ℚ) : WithBot ℚ)⟩ : PIVVector).u.den = 1
    ∧ (⟨1, 1, 0, 0, ((1/2 : ℚ) : WithBot ℚ)⟩ : PIVVector).v.den = 1 := by
  have hmem : (⟨1, 1, 0, 0, ((1/2 : ℚ) : WithBot ℚ)⟩ : PIVVector)
      ∈ computePIVField msqrtDemo img3 img3 cfgSmall := by
    rw [computePIVField_img3_eval]
    exact List.mem_singleton.mpr rfl
  obtain ⟨hcfg, hu, hv⟩ := subpixel_flag_ignored msqrtDemo img3 img3 cfgSmall _ hmem
  exact ⟨hmem, hcfg, hu, hv⟩
